import Mathlib

/-!
# Verification of the wsmonitor metrics pipeline

Shallow embedding of the wsmonitor repository (a website-availability
monitor: a checker daemon probing URLs and publishing metric events, and a
storage layer persisting them into a `websites` table with a composite
`metric[]` column).

Embedded components:
* `check_url` from `wsmonitor/checker.py` (the HTTP probe and metric emission);
* `_cast_metric` from `wsmonitor/api.py` (the composite-literal decoder);
* `MetricConnectionPool` from `wsmonitor/api.py` (the growing connection pool,
  over the psycopg2 `AbstractConnectionPool` acquire/release semantics);
* `database_init`, `database_add_metric` from `wsmonitor/api.py` over an
  abstract relational state.
-/

namespace WsMonitor

/-! ## Checker: `check_url` in `wsmonitor/checker.py`

The network fetch is nondeterministic input; we embed it as a value of
`FetchOutcome` describing what the probe encountered.  `urlopen` below embeds
the documented behaviour of Python `urllib.request.urlopen` on that input:
for a final HTTP response (after any redirect handling) whose status is in
200..299 the call returns normally with the body; for any other final status
it raises `urllib.error.HTTPError` carrying that status; transport-level
failures (DNS, connection, TLS) raise `urllib.error.URLError`; a malformed
URL or other local failure raises a different exception (e.g. `ValueError`).
-/

/-- What the HTTP probe encountered, as nondeterministic input:
either a final HTTP response with a status and a (decoded) body, a
transport-level failure, or a local failure before any network attempt. -/
inductive FetchOutcome where
  | response (status : Int) (body : String)
  | transportError
  | localError
deriving DecidableEq, Repr

/-- Result of the `urlopen(url).read()` compound in `check_url`'s `try:`. -/
inductive UrlopenRes where
  | ok (body : String)
  | httpError (code : Int)
  | urlError
  | otherExn
deriving DecidableEq, Repr

/-- Behaviour of `urllib.request.urlopen` (plus `.read()`) on a fetch
outcome: 2xx statuses return the body, any other received status raises
`HTTPError` with that status. -/
def urlopen : FetchOutcome → UrlopenRes
  | .response s b => if 200 ≤ s ∧ s < 300 then .ok b else .httpError s
  | .transportError => .urlError
  | .localError => .otherExn

/-- Python exception escaping `check_url` itself (reading the unbound local
`content` would raise `UnboundLocalError`). -/
inductive PyExn where
  | unboundLocalError
deriving DecidableEq, Repr

/-- The metric event passed to `api.kafka_send_metric`:
`(url_id, now, response_time, return_code, regexp_check)`.  Wall-clock
readings are integer microsecond counts; `response_time` is the difference
of the two readings (`timedelta / timedelta(microseconds=1)` has an integral
value because `timedelta` has microsecond resolution). -/
structure MetricEvent where
  url_id : Nat
  timestamp : Int
  response_time : Int
  return_code : Int
  regex_check : Option Bool
deriving DecidableEq, Repr

/-- Python truthiness of the `regexp` column value (`None` and `''` are
falsy, any non-empty string is truthy). -/
def pyTruthy : Option String → Bool
  | none => false
  | some s => s ≠ ""

/-- `check_url(url_id, url, regexp, timeout)` from `wsmonitor/checker.py`.

`search` is the regex engine (`re.search(regexp, text) is not None`),
passed as an oracle parameter; `t0`, `t1` are the two `datetime.now()`
wall-clock readings (microseconds); `outcome` is what the fetch
encountered.  Returns the list of metric events sent to kafka (the call at
the end of the function body is unconditional), or the exception if the
body raises one. -/
def check_url (search : String → String → Bool) (url_id : Nat)
    (outcome : FetchOutcome) (regexp : Option String) (t0 t1 : Int) :
    Except PyExn (List MetricEvent) :=
  let rcContent : Int × Option String :=
    match urlopen outcome with
    | .ok b => (200, some b)
    | .httpError c => (c, none)
    | .urlError => (599, none)
    | .otherExn => (-1, none)
  let return_code := rcContent.1
  let content := rcContent.2
  let response_time : Int := t1 - t0
  let regexp_check : Except PyExn (Option Bool) :=
    if return_code = 200 ∧ pyTruthy regexp then
      match content with
      | some b => .ok (some (search (regexp.getD "") b))
      | none => .error .unboundLocalError
    else
      .ok none
  regexp_check.map fun rc =>
    [⟨url_id, t0, response_time, return_code, rc⟩]

/-- Helper: `check_url` never raises; it always completes with a single
metric event whose fields are determined by the outcome and the clock
readings. -/
theorem check_url_ok (search : String → String → Bool) (url_id : Nat)
    (outcome : FetchOutcome) (regexp : Option String) (t0 t1 : Int) :
    ∃ rc₀ rgx, check_url search url_id outcome regexp t0 t1 =
      .ok [⟨url_id, t0, t1 - t0, rc₀, rgx⟩] := by
  cases outcome with
  | response s b =>
    by_cases h2 : 200 ≤ s ∧ s < 300
    · by_cases hr : pyTruthy regexp
      · exact ⟨200, some (search (regexp.getD "") b), by
          simp [check_url, urlopen, Except.map, h2, hr]⟩
      · exact ⟨200, none, by simp [check_url, urlopen, Except.map, h2, hr]⟩
    · refine ⟨s, none, ?_⟩
      have hs : ¬ s = 200 := by
        intro h
        exact h2 (by omega)
      simp [check_url, urlopen, Except.map, h2, hs]
  | transportError =>
    exact ⟨599, none, by simp [check_url, urlopen, Except.map]⟩
  | localError =>
    exact ⟨-1, none, by simp [check_url, urlopen, Except.map]⟩

/-- The `return_code` local computed by `check_url`'s `try/except/else`
ladder, as a function of what the fetch encountered. -/
def returnCodeOf (outcome : FetchOutcome) : Int :=
  match urlopen outcome with
  | .ok _ => 200
  | .httpError c => c
  | .urlError => 599
  | .otherExn => -1

/-- Helper: every event emitted by `check_url` carries
`return_code = returnCodeOf outcome`. -/
theorem check_url_return_code (search : String → String → Bool) (url_id : Nat)
    (outcome : FetchOutcome) (regexp : Option String) (t0 t1 : Int)
    (events : List MetricEvent) (ev : MetricEvent)
    (hok : check_url search url_id outcome regexp t0 t1 = .ok events)
    (hev : ev ∈ events) :
    ev.return_code = returnCodeOf outcome := by
  cases outcome with
  | response s b =>
    by_cases h2 : 200 ≤ s ∧ s < 300
    · by_cases hr : pyTruthy regexp
      · simp [check_url, urlopen, Except.map, h2, hr] at hok
        subst hok
        simp at hev
        subst hev
        simp [returnCodeOf, urlopen, h2]
      · simp [check_url, urlopen, Except.map, h2, hr] at hok
        subst hok
        simp at hev
        subst hev
        simp [returnCodeOf, urlopen, h2]
    · have hs : ¬ s = 200 := by
        intro h
        exact h2 (by omega)
      simp [check_url, urlopen, Except.map, h2, hs] at hok
      subst hok
      simp at hev
      subst hev
      simp [returnCodeOf, urlopen, h2]
  | transportError =>
    simp [check_url, urlopen, Except.map] at hok
    subst hok
    simp at hev
    subst hev
    simp [returnCodeOf, urlopen]
  | localError =>
    simp [check_url, urlopen, Except.map] at hok
    subst hok
    simp at hev
    subst hev
    simp [returnCodeOf, urlopen]

/-- C1: for every metric event produced by a check, `regex_check` is present
(true or false) if and only if `return_code == 200` and the watch entry's
regexp is non-empty; in every other case (non-200 return code, or
empty/absent regexp) `regex_check` is absent. -/
theorem claim_C1_regex_check_presence (search : String → String → Bool)
    (url_id : Nat) (outcome : FetchOutcome) (regexp : Option String)
    (t0 t1 : Int) (events : List MetricEvent) (ev : MetricEvent)
    (hok : check_url search url_id outcome regexp t0 t1 = .ok events)
    (hev : ev ∈ events) :
    ev.regex_check.isSome = true ↔
      (ev.return_code = 200 ∧ pyTruthy regexp = true) := by
  cases outcome with
  | response s b =>
    by_cases h2 : 200 ≤ s ∧ s < 300
    · by_cases hr : pyTruthy regexp
      · simp [check_url, urlopen, Except.map, h2, hr] at hok
        subst hok
        simp at hev
        subst hev
        simp [hr]
      · simp [check_url, urlopen, Except.map, h2, hr] at hok
        subst hok
        simp at hev
        subst hev
        simp [hr]
    · have hs : ¬ s = 200 := by
        intro h
        exact h2 (by omega)
      simp [check_url, urlopen, Except.map, h2, hs] at hok
      subst hok
      simp at hev
      subst hev
      simp [hs]
  | transportError =>
    simp [check_url, urlopen, Except.map] at hok
    subst hok
    simp at hev
    subst hev
    simp
  | localError =>
    simp [check_url, urlopen, Except.map] at hok
    subst hok
    simp at hev
    subst hev
    simp

/-- C1 witness: concrete successful check against a 200 response with a
non-empty regexp; `regex_check` is present, and the iff holds there. -/
theorem claim_C1_witness :
    ((⟨1, 0, 5, 200, some true⟩ : MetricEvent).regex_check.isSome = true ↔
      ((⟨1, 0, 5, 200, some true⟩ : MetricEvent).return_code = 200 ∧
        pyTruthy (some "x") = true)) :=
  claim_C1_regex_check_presence (fun _ _ => true) 1
    (.response 200 "abc") (some "x") 0 5 [⟨1, 0, 5, 200, some true⟩]
    ⟨1, 0, 5, 200, some true⟩ (by rfl) (by simp)

/-- C2 counterexample: a received HTTP 204 (No Content) response completes
`urlopen` normally (2xx), and the `else:` branch of `check_url` hardcodes
`return_code = 200`, so the emitted return code is 200, not the response's
actual status 204.  The claim "the emitted return_code equals the response's
status code" is therefore false for this input. -/
theorem claim_C2_counterexample :
    check_url (fun _ _ => true) 1 (.response 204 "x") none 0 5 =
      .ok [⟨1, 0, 5, 200, none⟩] ∧ (200 : Int) ≠ 204 :=
  ⟨by rfl, by decide⟩

/-- C2 (amended): when an HTTP response is received with a 2xx status the
emitted `return_code` is 200 (the exact 2xx status is not preserved); when a
non-2xx response is received the emitted `return_code` equals the response's
status; a transport-level failure yields the fixed sentinel 599; a malformed
URL or other local failure yields the fixed sentinel -1, distinct from 599
and from every HTTP status code (100..599). -/
theorem claim_C2_amended_sentinels (search : String → String → Bool)
    (url_id : Nat) (outcome : FetchOutcome) (regexp : Option String)
    (t0 t1 : Int) (events : List MetricEvent) (ev : MetricEvent)
    (hok : check_url search url_id outcome regexp t0 t1 = .ok events)
    (hev : ev ∈ events) :
    (∀ s b, outcome = .response s b → 200 ≤ s → s < 300 →
      ev.return_code = 200) ∧
    (∀ s b, outcome = .response s b → ¬ (200 ≤ s ∧ s < 300) →
      ev.return_code = s) ∧
    (outcome = .transportError → ev.return_code = 599) ∧
    (outcome = .localError → ev.return_code = -1) ∧
    (599 : Int) ≠ -1 ∧
    (∀ c : Int, 100 ≤ c → c ≤ 599 → (-1 : Int) ≠ c) := by
  have hrc := check_url_return_code search url_id outcome regexp t0 t1
    events ev hok hev
  refine ⟨?_, ?_, ?_, ?_, by decide, ?_⟩
  · intro s b ho hlo hhi
    subst ho
    rw [hrc]
    simp [returnCodeOf, urlopen, hlo, hhi]
  · intro s b ho hno
    subst ho
    rw [hrc]
    simp only [returnCodeOf, urlopen]
    rw [if_neg hno]
  · intro ho
    subst ho
    rw [hrc]
    rfl
  · intro ho
    subst ho
    rw [hrc]
    rfl
  · intro c h1 h2 h
    omega

/-- C2 witness: concrete transport failure emits 599; and -1 differs from
the HTTP status 404. -/
theorem claim_C2_witness :
    (⟨1, 0, 5, 599, none⟩ : MetricEvent).return_code = 599 ∧
      (-1 : Int) ≠ 404 := by
  have h := claim_C2_amended_sentinels (fun _ _ => true) 1 .transportError
    none 0 5 [⟨1, 0, 5, 599, none⟩] ⟨1, 0, 5, 599, none⟩ (by rfl) (by simp)
  exact ⟨h.2.2.1 rfl, h.2.2.2.2.2 404 (by decide) (by decide)⟩

/-- C3 counterexample: `check_url` measures both clock readings with
wall-clock `datetime.now()`; if the second reading is behind the first
(clock stepped backwards between them), the emitted `response_time` is
negative — here readings 5 and 3 microseconds give `response_time = -2 < 0`.
The claim "always >= 0" is therefore false on the code. -/
theorem claim_C3_counterexample :
    check_url (fun _ _ => true) 1 .transportError none 5 3 =
      .ok [⟨1, 5, -2, 599, none⟩] ∧ (-2 : Int) < 0 :=
  ⟨by rfl, by decide⟩

/-- C3 (amended): for every completed check task, exactly one metric event
is published regardless of outcome, its `response_time` is the integer
number of microseconds between the two wall-clock readings, and it is
`>= 0` whenever the second reading is not earlier than the first. -/
theorem claim_C3_amended_single_event (search : String → String → Bool)
    (url_id : Nat) (outcome : FetchOutcome) (regexp : Option String)
    (t0 t1 : Int) :
    ∃ ev, check_url search url_id outcome regexp t0 t1 = .ok [ev] ∧
      ev.response_time = t1 - t0 ∧ (t0 ≤ t1 → 0 ≤ ev.response_time) := by
  obtain ⟨rc, rgx, h⟩ := check_url_ok search url_id outcome regexp t0 t1
  exact ⟨⟨url_id, t0, t1 - t0, rc, rgx⟩, h, rfl, fun hle => by simp; omega⟩

/-- C3 witness: concrete check with readings 0 and 7 microseconds publishes
exactly one event with non-negative `response_time`. -/
theorem claim_C3_witness :
    check_url (fun _ _ => true) 1 .transportError none 0 7 =
      .ok [⟨1, 0, 7, 599, none⟩] ∧ (0 : Int) ≤ 7 - 0 := by
  obtain ⟨ev, hok, hrt, himp⟩ := claim_C3_amended_single_event
    (fun _ _ => true) 1 .transportError none 0 7
  have h0 : (0 : Int) ≤ ev.response_time := himp (by decide)
  rw [hrt] at h0
  exact ⟨by rfl, h0⟩

/-- C10: the response-body local `content` is read only inside the regex
branch, which is entered only when `return_code == 200`; `return_code` is
200 only on the path where the fetch succeeded and the body was assigned
(urllib raises `HTTPError` exactly for non-2xx final statuses, so the
`except` branches never set 200), hence the unbound-variable access is
unreachable: `check_url` never raises `UnboundLocalError`. -/
theorem claim_C10_no_unbound_read (search : String → String → Bool)
    (url_id : Nat) (outcome : FetchOutcome) (regexp : Option String)
    (t0 t1 : Int) :
    check_url search url_id outcome regexp t0 t1 ≠
      .error .unboundLocalError := by
  obtain ⟨rc, rgx, h⟩ := check_url_ok search url_id outcome regexp t0 t1
  simp [h]

/-! ## Connection pool: `MetricConnectionPool` in `wsmonitor/api.py`

The pool extends psycopg2's `ThreadedConnectionPool`.  The relevant
psycopg2 `AbstractConnectionPool` semantics (from its source, which
`wsmonitor` relies on and patches around): `__init__(minconn, maxconn)`
opens `minconn` connections into the free list; `_getconn` (with a fresh
key) pops a free connection if one exists, otherwise raises
`PoolError("connection pool exhausted")` when `len(used) == maxconn`, and
otherwise opens a new connection; `_putconn` returns the connection to the
free list while `len(free) < minconn`, else closes it.  Counts of free and
used connections fully determine the behaviour we verify, so the state is
the quadruple below.  The embedding is sequential (one operation at a
time); the Python code serialises `getconn`/`putconn` under the pool's own
lock. -/

/-- Abstract state of the connection pool: configured floor and ceiling,
and the numbers of free (pooled) and used (handed-out) connections. -/
structure PoolState where
  minconn : Nat
  maxconn : Nat
  nfree : Nat
  nused : Nat
deriving DecidableEq, Repr

/-- `MetricConnectionPool.__init__` calls `super().__init__(2, 2, ...)`,
which opens `minconn = 2` connections into the free list. -/
def poolInit : PoolState := ⟨2, 2, 2, 0⟩

/-- `psycopg2.pool.PoolError` cases distinguished by `getconn`'s handler
(it re-raises anything whose message is not "connection pool exhausted"). -/
inductive PoolErr where
  | exhausted
deriving DecidableEq, Repr

/-- psycopg2 `AbstractConnectionPool._getconn` with a fresh key. -/
def baseGetconn (st : PoolState) : Except PoolErr PoolState :=
  if 0 < st.nfree then
    .ok { st with nfree := st.nfree - 1, nused := st.nused + 1 }
  else if st.nused = st.maxconn then
    .error .exhausted
  else
    .ok { st with nused := st.nused + 1 }

/-- `MetricConnectionPool.getconn`: try the base pool; on
"connection pool exhausted" raise the capacity ceiling by one
(`maxconn += 1`), raise the floor to the ceiling
(`minconn = maxconn`, preventing connection closes), and retry. -/
def getconn (st : PoolState) : Except PoolErr PoolState :=
  match baseGetconn st with
  | .ok st2 => .ok st2
  | .error .exhausted =>
      baseGetconn
        { st with maxconn := st.maxconn + 1, minconn := st.maxconn + 1 }

/-- psycopg2 `AbstractConnectionPool._putconn`: keep the returned
connection in the free list while it is below `minconn`, otherwise close
it; modelled as a no-op when no connection is outstanding. -/
def putconn (st : PoolState) : PoolState :=
  if 0 < st.nused then
    if st.nfree < st.minconn then
      { st with nfree := st.nfree + 1, nused := st.nused - 1 }
    else
      { st with nused := st.nused - 1 }
  else st

/-- One acquire or release step against the pool. -/
inductive PoolOp where
  | acquire
  | release
deriving DecidableEq, Repr

/-- Apply one pool operation (an acquire that errored would leave the
counters unchanged; `getconn` in fact never errors, see C5). -/
def applyPoolOp (st : PoolState) (op : PoolOp) : PoolState :=
  match op with
  | .acquire =>
    match getconn st with
    | .ok st2 => st2
    | .error _ => st
  | .release => putconn st

/-- Run a sequence of acquire/release operations. -/
def runPoolOps (st : PoolState) (ops : List PoolOp) : PoolState :=
  ops.foldl applyPoolOp st

/-- Helper: no single pool operation ever decreases the capacity ceiling. -/
theorem applyPoolOp_maxconn_mono (st : PoolState) (op : PoolOp) :
    st.maxconn ≤ (applyPoolOp st op).maxconn := by
  cases op with
  | release =>
    simp only [applyPoolOp, putconn]
    split
    · split <;> simp
    · simp
  | acquire =>
    by_cases h1 : 0 < st.nfree
    · simp [applyPoolOp, getconn, baseGetconn, h1]
    · by_cases h2 : st.nused = st.maxconn
      · have h3 : ¬ st.nused = st.maxconn + 1 := by omega
        simp [applyPoolOp, getconn, baseGetconn, h1, h2, h3]
      · simp [applyPoolOp, getconn, baseGetconn, h1, h2]

/-- Helper: capacity is monotone along any operation sequence. -/
theorem runPoolOps_maxconn_mono (ops : List PoolOp) :
    ∀ st : PoolState, st.maxconn ≤ (runPoolOps st ops).maxconn := by
  induction ops with
  | nil =>
    intro st
    simp [runPoolOps]
  | cons op rest ih =>
    intro st
    have h1 := applyPoolOp_maxconn_mono st op
    have h2 := ih (applyPoolOp st op)
    simp only [runPoolOps, List.foldl_cons] at h2 ⊢
    omega

/-- C5: the pool starts with 2 connections (floor and ceiling 2); whenever
a `getconn` call finds the pool exhausted (no free connection and
`used == maxconn`), it raises the capacity ceiling and the minimum floor to
the current demand (`used + 1`) and satisfies the call instead of failing;
and across every sequence of acquire/release operations the capacity only
grows, monotonically. -/
theorem claim_C5_pool_growth :
    (poolInit.minconn = 2 ∧ poolInit.maxconn = 2 ∧
      poolInit.nfree + poolInit.nused = 2) ∧
    (∀ st : PoolState, st.nfree = 0 → st.nused = st.maxconn →
      ∃ st2, getconn st = .ok st2 ∧ st2.maxconn = st.nused + 1 ∧
        st2.minconn = st2.maxconn ∧ st2.nused = st.nused + 1) ∧
    (∀ (st : PoolState) (ops : List PoolOp),
      st.maxconn ≤ (runPoolOps st ops).maxconn) := by
  refine ⟨⟨rfl, rfl, rfl⟩, ?_, fun st ops => runPoolOps_maxconn_mono ops st⟩
  intro st h0 hx
  refine ⟨⟨st.maxconn + 1, st.maxconn + 1, st.nfree, st.nused + 1⟩, ?_,
    by simp [hx], rfl, rfl⟩
  have h1 : ¬ 0 < st.nfree := by omega
  have h3 : ¬ st.nused = st.maxconn + 1 := by omega
  simp [getconn, baseGetconn, h1, hx, h3]

/-- C5 witness: the concrete exhausted pool (ceiling 2, 2 used, none free)
grows to ceiling 3 and satisfies the acquire; capacity after a concrete
operation sequence is at least the starting capacity. -/
theorem claim_C5_witness :
    getconn ⟨2, 2, 0, 2⟩ = .ok ⟨3, 3, 0, 3⟩ ∧
      (2 : Nat) ≤ (runPoolOps ⟨2, 2, 0, 2⟩
        [.acquire, .release, .acquire]).maxconn := by
  have h := claim_C5_pool_growth
  obtain ⟨st2, hok, hmax, hmin, hused⟩ := h.2.1 ⟨2, 2, 0, 2⟩ rfl rfl
  exact ⟨by rfl, h.2.2 ⟨2, 2, 0, 2⟩ [.acquire, .release, .acquire]⟩

/-! ## Storage data model

The `websites` table (`id SERIAL PRIMARY KEY, url VARCHAR, regexp text,
metrics metric[]`) and the composite type `metric (time_stamp TIMESTAMP(0)
WITH TIME ZONE, response_time INTEGER, return_code INTEGER, regex_check
BOOL)`. -/

/-- A `TIMESTAMP(0) WITH TIME ZONE` value: calendar fields at second
precision plus a timezone offset in minutes. -/
structure Ts where
  year : Nat
  month : Nat
  day : Nat
  hour : Nat
  minute : Nat
  second : Nat
  offMin : Int
deriving DecidableEq, Repr

/-- A stored value of the composite type `metric`. -/
structure Metric where
  time_stamp : Ts
  response_time : Int
  return_code : Int
  regex_check : Option Bool
deriving DecidableEq, Repr

/-- A row of the `websites` table (the SERIAL id is the key of the pair). -/
structure Entry where
  url : String
  regexp : Option String
  metrics : List Metric
deriving DecidableEq, Repr

/-- The `websites` table as a list of id-keyed rows. -/
abbrev DB := List (Nat × Entry)

/-- Database-cluster state visible to `database_init`: whether the `metric`
composite type exists, and the `websites` table contents (`none` when the
table does not exist). -/
structure DBState where
  typeExists : Bool
  table : Option DB
deriving DecidableEq, Repr

/-- `database_init(config)` from `wsmonitor/api.py`.  Its body executes, in
order: `DROP TABLE IF EXISTS websites`, `DROP TYPE IF EXISTS metric`, a
pool reset, a reconnect — during which the pool's
`_register_metric_types` runs `CREATE TYPE metric` because the type is now
absent — and finally `CREATE TABLE websites (...)` producing an empty
table.  (Its own docstring: "Reset and initialize postgres database.") -/
def database_init (st : DBState) : DBState :=
  let afterDropTable : DBState := ⟨st.typeExists, none⟩
  let afterDropType : DBState := ⟨false, afterDropTable.table⟩
  let afterReconnect : DBState := ⟨true, afterDropType.table⟩
  ⟨afterReconnect.typeExists, some []⟩

/-- `database_add_metric(config, url_id, ...)` from `wsmonitor/api.py`:
`UPDATE websites SET metrics = array_append(metrics, (...)::metric)
WHERE id = url_id` — every row whose id matches gets the metric appended
to the end of its array; other rows are untouched; matching zero rows is
not an error. -/
def database_add_metric (db : DB) (url_id : Nat) (m : Metric) : DB :=
  db.map fun r =>
    if r.1 = url_id then (r.1, ⟨r.2.url, r.2.regexp, r.2.metrics ++ [m]⟩)
    else r

/-- Helper: an update matching no row leaves the table unchanged. -/
theorem database_add_metric_skip (i : Nat) (m : Metric) :
    ∀ db : DB, (∀ p ∈ db, p.1 ≠ i) → database_add_metric db i m = db := by
  intro db
  induction db with
  | nil =>
    intro h
    rfl
  | cons p rest ih =>
    intro h
    have hp : ¬ p.1 = i := h p (by simp)
    have hr := ih fun q hq => h q (by simp [hq])
    simp only [database_add_metric, List.map_cons] at hr ⊢
    rw [if_neg hp]
    exact congrArg _ hr

/-- C6 counterexample: calling `database_init` on a state where the type
and table already exist, with one watch entry stored, does not leave the
table unchanged — the entry is destroyed (the function drops and recreates
the table). -/
theorem claim_C6_counterexample :
    database_init ⟨true, some [(1, (⟨"http://a", none, []⟩ : Entry))]⟩ ≠
      ⟨true, some [(1, (⟨"http://a", none, []⟩ : Entry))]⟩ := by
  decide

/-- C6 (amended): `database_init` is destructive, not creation-if-absent:
whatever the prior state (type or table present or not, any entries),
it leaves the cluster with the `metric` type existing and an empty
`websites` table, so existing watch entries and histories are lost; it is
idempotent only in the sense that a repeated call reproduces the same
empty state. -/
theorem claim_C6_amended_init_destructive (st : DBState) :
    database_init st = ⟨true, some []⟩ ∧
      database_init (database_init st) = database_init st :=
  ⟨rfl, rfl⟩

/-- Module-level names bound in `wsmonitor/api.py` (classes, globals and
functions, in source order). -/
def apiModuleNames : List String :=
  ["DatabaseError", "KafkaError", "_cast_metric", "_connection_pool",
   "_connection_pool_lock", "MetricConnectionPool", "_get_db_connection",
   "_release_db_connection", "database_init", "database_add_metric",
   "_kafka_producer", "_kafka_producer_lock", "_kafka_init_topic",
   "_get_kafka_ca_file", "_get_kafka_producer", "kafka_send_metric",
   "kafka_get_metrics", "url_add", "url_remove", "url_list", "url_status"]

/-- The attribute that the CLI command `wsmonitor database reset`
(`database_reset` in `wsmonitor/cli.py`) resolves on the `api` module:
its body is `api.database_reset(_config)`. -/
def cliResetTarget : String := "database_reset"

/-- Result of a Python attribute lookup on a module. -/
inductive AttrRes where
  | found
  | attributeError
deriving DecidableEq, Repr

/-- Python attribute lookup on a module namespace. -/
def pyGetattr (names : List String) (attr : String) : AttrRes :=
  if attr ∈ names then .found else .attributeError

/-- C7: the spec requires a storage `reset()` operation, and the CLI
command `database reset` indeed calls `api.database_reset` — but
`wsmonitor/api.py` defines no `database_reset`, so the lookup raises
`AttributeError` (while e.g. `database_init` resolves fine).  The code
contradicts its own CLI caller: a code bug. -/
theorem claim_C7_reset_missing :
    pyGetattr apiModuleNames cliResetTarget = .attributeError ∧
      pyGetattr apiModuleNames ("database_init") = .found :=
  ⟨by decide, by decide⟩

/-- C8: `appendMetric(id, metric)` appends exactly one metric event to the
end of the history array of the entry with that id, leaving every other
entry's fields and history unchanged; if no entry with that id exists the
call is a silent no-op. -/
theorem claim_C8_append_metric (i : Nat) (m : Metric) :
    (∀ (pre post : DB) (e : Entry),
      (∀ p ∈ pre, p.1 ≠ i) → (∀ p ∈ post, p.1 ≠ i) →
      database_add_metric (pre ++ (i, e) :: post) i m =
        pre ++ (i, ⟨e.url, e.regexp, e.metrics ++ [m]⟩) :: post) ∧
    (∀ db : DB, (∀ p ∈ db, p.1 ≠ i) → database_add_metric db i m = db) := by
  refine ⟨?_, database_add_metric_skip i m⟩
  intro pre post e hpre hpost
  have h1 : database_add_metric pre i m = pre :=
    database_add_metric_skip i m pre hpre
  have h2 : database_add_metric post i m = post :=
    database_add_metric_skip i m post hpost
  simp only [database_add_metric, List.map_append, List.map_cons] at h1 h2 ⊢
  simp [h1, h2]

/-- C8 witness: appending to the second of two concrete entries touches
only that entry's history; appending with an id absent from the table is a
no-op. -/
theorem claim_C8_witness :
    database_add_metric
        [(1, ⟨"http://a", none, []⟩), (2, ⟨"http://b", some "r", []⟩)] 2
        ⟨⟨2021, 1, 1, 0, 0, 0, 0⟩, 123, 200, some true⟩ =
      [(1, ⟨"http://a", none, []⟩),
       (2, ⟨"http://b", some "r",
         [⟨⟨2021, 1, 1, 0, 0, 0, 0⟩, 123, 200, some true⟩]⟩)] ∧
    database_add_metric [(1, (⟨"http://a", none, []⟩ : Entry))] 7
        ⟨⟨2021, 1, 1, 0, 0, 0, 0⟩, 123, 200, some true⟩ =
      [(1, (⟨"http://a", none, []⟩ : Entry))] := by
  have h := claim_C8_append_metric 2 ⟨⟨2021, 1, 1, 0, 0, 0, 0⟩, 123, 200,
    some true⟩
  have h7 := claim_C8_append_metric 7 ⟨⟨2021, 1, 1, 0, 0, 0, 0⟩, 123, 200,
    some true⟩
  refine ⟨?_, h7.2 [(1, (⟨"http://a", none, []⟩ : Entry))] (by simp)⟩
  have := h.1 [(1, ⟨"http://a", none, []⟩)] [] ⟨"http://b", some "r", []⟩
    (by simp) (by simp)
  simpa using this

/-! ## Digits, number formatting and parsing

Infrastructure for the composite-literal codec: decimal digit characters,
the decimal rendering Postgres uses for integer composite fields, and the
digit-string parsing done by Python `int()`. -/

/-- Decimal digit character test (codes 48..57). -/
def isDigitCh (c : Char) : Bool := 48 ≤ c.toNat ∧ c.toNat ≤ 57

/-- Numeric value of a digit character. -/
def digitVal (c : Char) : Nat := c.toNat - 48

/-- The digit character for a value 0..9. -/
def toDigit : Nat → Char
  | 0 => '0'
  | 1 => '1'
  | 2 => '2'
  | 3 => '3'
  | 4 => '4'
  | 5 => '5'
  | 6 => '6'
  | 7 => '7'
  | 8 => '8'
  | _ => '9'

theorem isDigitCh_toDigit (n : Nat) : isDigitCh (toDigit n) = true := by
  unfold toDigit
  split <;> rfl

theorem digitVal_toDigit {n : Nat} (h : n < 10) : digitVal (toDigit n) = n := by
  interval_cases n <;> rfl

theorem digit_not_special {c : Char} (h : isDigitCh c = true) :
    c ≠ '"' ∧ c ≠ ',' ∧ c ≠ ')' ∧ c ≠ '\n' ∧ c ≠ '-' := by
  refine ⟨?_, ?_, ?_, ?_, ?_⟩ <;> intro he <;> subst he <;> revert h <;> decide

/-- Decimal rendering of a natural number (no leading zeros). -/
def fmtNat (n : Nat) : List Char :=
  if _h : n < 10 then [toDigit n]
  else fmtNat (n / 10) ++ [toDigit (n % 10)]
termination_by n
decreasing_by exact Nat.div_lt_self (by omega) (by decide)

theorem fmtNat_ne_nil (n : Nat) : fmtNat n ≠ [] := by
  rw [fmtNat]
  split <;> simp

theorem fmtNat_all_digits (n : Nat) :
    ∀ c ∈ fmtNat n, isDigitCh c = true := by
  induction n using Nat.strong_induction_on with
  | _ n ih =>
    rw [fmtNat]
    split
    · simp [isDigitCh_toDigit]
    · rename_i h
      intro c hc
      rcases List.mem_append.mp hc with h1 | h2
      · exact ih (n / 10) (Nat.div_lt_self (by omega) (by decide)) c h1
      · simp at h2
        subst h2
        exact isDigitCh_toDigit _

/-- Value of a digit string (the accumulator loop of a decimal parse). -/
def natOfDigits (l : List Char) : Nat :=
  l.foldl (fun acc c => acc * 10 + digitVal c) 0

theorem natOfDigits_fmtNat (n : Nat) : natOfDigits (fmtNat n) = n := by
  induction n using Nat.strong_induction_on with
  | _ n ih =>
    rw [fmtNat]
    split
    · rename_i h
      simp [natOfDigits, digitVal_toDigit h]
    · rename_i h
      have h1 := ih (n / 10) (Nat.div_lt_self (by omega) (by decide))
      have h2 : n % 10 < 10 := Nat.mod_lt _ (by decide)
      simp only [natOfDigits, List.foldl_append, List.foldl_cons,
        List.foldl_nil] at h1 ⊢
      rw [h1, digitVal_toDigit h2]
      omega

/-- Python `int(str)` on the decimal literals occurring in metric
composite fields: an optional minus sign followed by a non-empty run of
digits parses to the value; anything else raises `ValueError` (modelled as
`none`).  (Partial model of `int()`: leading `+`, whitespace and
underscore separators, which never occur in Postgres integer output, are
not modelled.) -/
def pyInt (l : List Char) : Option Int :=
  match l with
  | [] => none
  | c :: cs =>
    if c = '-' then
      if cs ≠ [] ∧ cs.all isDigitCh then some (-(natOfDigits cs : Int))
      else none
    else
      if (c :: cs).all isDigitCh then some ((natOfDigits (c :: cs) : Int))
      else none

/-- Postgres decimal text for an `INTEGER` composite field. -/
def fmtInt (i : Int) : List Char :=
  if i < 0 then '-' :: fmtNat i.natAbs else fmtNat i.toNat

theorem pyInt_fmtInt (i : Int) : pyInt (fmtInt i) = some i := by
  by_cases hneg : i < 0
  · have hne := fmtNat_ne_nil i.natAbs
    have hdig : (fmtNat i.natAbs).all isDigitCh = true :=
      List.all_eq_true.mpr (fmtNat_all_digits i.natAbs)
    simp only [fmtInt, if_pos hneg, pyInt, if_pos rfl, hne, hdig,
      natOfDigits_fmtNat, ne_eq, not_false_eq_true, and_self, if_pos]
    congr 1
    omega
  · rcases hcons : fmtNat i.toNat with _ | ⟨c, cs⟩
    · exact absurd hcons (fmtNat_ne_nil _)
    · have hdigs : ∀ x ∈ fmtNat i.toNat, isDigitCh x = true :=
        fmtNat_all_digits i.toNat

      have hcdig : isDigitCh c = true := hdigs c (by simp [hcons])
      have hcm : c ≠ '-' := (digit_not_special hcdig).2.2.2.2
      have hall : (c :: cs).all isDigitCh = true := by
        rw [← hcons]
        exact List.all_eq_true.mpr hdigs
      simp only [fmtInt, if_neg hneg, hcons, pyInt, if_neg hcm, hall,
        if_pos]
      rw [← hcons, natOfDigits_fmtNat]
      congr 1
      omega

/-! ## Timestamp text format

`_cast_metric` receives the Postgres text output of a
`TIMESTAMP(0) WITH TIME ZONE` composite field.  Modelled from the spec:
in the reference deployment (ISO date style, UTC session timezone) that
output is `YYYY-MM-DD HH:MM:SS+00`, which is what the decoder's
`fromisoformat(group(1) + ':00')` hack is written for. -/

/-- Two-digit zero-padded field. -/
def pad2 (n : Nat) : List Char := [toDigit (n / 10), toDigit (n % 10)]

/-- Four-digit zero-padded field. -/
def pad4 (n : Nat) : List Char :=
  [toDigit (n / 1000), toDigit (n / 100 % 10), toDigit (n / 10 % 10),
   toDigit (n % 10)]

/-- Postgres text output of a stored `TIMESTAMP(0) WITH TIME ZONE` value
in a UTC session: `YYYY-MM-DD HH:MM:SS+00`. -/
def fmtTs (t : Ts) : List Char :=
  pad4 t.year ++ '-' :: (pad2 t.month ++ '-' :: (pad2 t.day ++
    ' ' :: (pad2 t.hour ++ ':' :: (pad2 t.minute ++ ':' :: (pad2 t.second ++
      ['+', '0', '0'])))))

/-- Field ranges under which `fmtTs` is the faithful rendering (year
0001..9999, calendar-plausible fields, UTC offset — what Postgres can
emit for this deployment and `fromisoformat` accepts back). -/
def tsValid (t : Ts) : Prop :=
  1 ≤ t.year ∧ t.year ≤ 9999 ∧ 1 ≤ t.month ∧ t.month ≤ 12 ∧
    1 ≤ t.day ∧ t.day ≤ 31 ∧ t.hour ≤ 23 ∧ t.minute ≤ 59 ∧
    t.second ≤ 59 ∧ t.offMin = 0

instance (t : Ts) : Decidable (tsValid t) := by
  unfold tsValid
  infer_instance

/-- Timezone-offset tail of an ISO timestamp: `±HH:MM`, exactly to the end
of the string. -/
def parseOff (l : List Char) : Option Int :=
  match l with
  | sg :: o1 :: o2 :: ':' :: o3 :: o4 :: [] =>
    if (sg = '+' ∨ sg = '-') ∧ [o1, o2, o3, o4].all isDigitCh then
      let hh := digitVal o1 * 10 + digitVal o2
      let mm := digitVal o3 * 10 + digitVal o4
      if hh ≤ 23 ∧ mm ≤ 59 then
        some (if sg = '-' then -((hh * 60 + mm : Nat) : Int)
              else ((hh * 60 + mm : Nat) : Int))
      else none
    else none
  | _ => none

/-- Python `datetime.fromisoformat` on the strings this codec feeds it:
`YYYY-MM-DD HH:MM:SS±HH:MM` (space or `T` separator) with validated field
ranges; any other input raises `ValueError` (modelled as `none`).
(Partial model of `fromisoformat`: shapes the decoder never produces —
fractional seconds, missing offsets, offsets with seconds — are not
modelled.) -/
def parseIso (l : List Char) : Option Ts :=
  match l with
  | y1 :: y2 :: y3 :: y4 :: '-' :: m1 :: m2 :: '-' :: d1 :: d2 :: sep ::
      h1 :: h2 :: ':' :: mi1 :: mi2 :: ':' :: s1 :: s2 :: rest =>
    if (sep = ' ' ∨ sep = 'T') ∧
        [y1, y2, y3, y4, m1, m2, d1, d2, h1, h2, mi1, mi2, s1, s2].all
          isDigitCh then
      (parseOff rest).bind fun off =>
        if 1 ≤ ((digitVal y1 * 10 + digitVal y2) * 10 + digitVal y3) * 10 +
              digitVal y4 ∧
            1 ≤ digitVal m1 * 10 + digitVal m2 ∧
            digitVal m1 * 10 + digitVal m2 ≤ 12 ∧
            1 ≤ digitVal d1 * 10 + digitVal d2 ∧
            digitVal d1 * 10 + digitVal d2 ≤ 31 ∧
            digitVal h1 * 10 + digitVal h2 ≤ 23 ∧
            digitVal mi1 * 10 + digitVal mi2 ≤ 59 ∧
            digitVal s1 * 10 + digitVal s2 ≤ 59 then
          some ⟨((digitVal y1 * 10 + digitVal y2) * 10 + digitVal y3) * 10 +
              digitVal y4,
            digitVal m1 * 10 + digitVal m2, digitVal d1 * 10 + digitVal d2,
            digitVal h1 * 10 + digitVal h2,
            digitVal mi1 * 10 + digitVal mi2,
            digitVal s1 * 10 + digitVal s2, off⟩
        else none
    else none
  | _ => none

theorem parseIso_fmtTs (t : Ts) (h : tsValid t) :
    parseIso (fmtTs t ++ [':', '0', '0']) = some t := by
  obtain ⟨h1, h2, h3, h4, h5, h6, h7, h8, h9, h10⟩ := h
  have dy1 : t.year / 1000 < 10 := by omega
  have dy2 : t.year / 100 % 10 < 10 := by omega
  have dy3 : t.year / 10 % 10 < 10 := by omega
  have dy4 : t.year % 10 < 10 := by omega
  have dmo1 : t.month / 10 < 10 := by omega
  have dmo2 : t.month % 10 < 10 := by omega
  have dd1 : t.day / 10 < 10 := by omega
  have dd2 : t.day % 10 < 10 := by omega
  have dh1 : t.hour / 10 < 10 := by omega
  have dh2 : t.hour % 10 < 10 := by omega
  have dmi1 : t.minute / 10 < 10 := by omega
  have dmi2 : t.minute % 10 < 10 := by omega
  have ds1 : t.second / 10 < 10 := by omega
  have ds2 : t.second % 10 < 10 := by omega
  have hoff : parseOff ['+', '0', '0', ':', '0', '0'] = some 0 := by rfl
  simp only [fmtTs, pad4, pad2, List.cons_append, List.nil_append,
    List.append_assoc]
  simp only [parseIso]
  rw [if_pos (by simp [isDigitCh_toDigit])]
  rw [hoff]
  simp only [Option.bind_some, Option.some_bind]
  simp only [digitVal_toDigit dy1, digitVal_toDigit dy2,
    digitVal_toDigit dy3, digitVal_toDigit dy4, digitVal_toDigit dmo1,
    digitVal_toDigit dmo2, digitVal_toDigit dd1, digitVal_toDigit dd2,
    digitVal_toDigit dh1, digitVal_toDigit dh2, digitVal_toDigit dmi1,
    digitVal_toDigit dmi2, digitVal_toDigit ds1, digitVal_toDigit ds2]
  have hy : ((t.year / 1000 * 10 + t.year / 100 % 10) * 10 +
      t.year / 10 % 10) * 10 + t.year % 10 = t.year := by omega
  have hmo : t.month / 10 * 10 + t.month % 10 = t.month := by omega
  have hd : t.day / 10 * 10 + t.day % 10 = t.day := by omega
  have hh : t.hour / 10 * 10 + t.hour % 10 = t.hour := by omega
  have hmi : t.minute / 10 * 10 + t.minute % 10 = t.minute := by omega
  have hs : t.second / 10 * 10 + t.second % 10 = t.second := by omega
  rw [hy, hmo, hd, hh, hmi, hs]
  rw [if_pos (by omega)]
  cases t with
  | mk y mo d h mi s off =>
    simp only at h10 ⊢
    rw [h10]

/-! ## Composite-literal pattern match

`_cast_metric` applies `re.match` with the anchored pattern
`\("(.+)",(.+),(.+),(.*)\)`.  We embed the regex engine's semantics for
this one pattern: `.` matches any character except a newline; groups 1-3
(`.+`) are non-empty and greedy, group 4 (`.*`) may be empty and is
greedy; greediness means longest-first preference with full backtracking,
and `re.match` anchors at the start only, so characters after the `\)`
are permitted.  Longest-first is realised by scanning the splits of the
remaining input in decreasing prefix length; `findSome?` provides the
backtracking. -/

/-- All decompositions `(pre, suf)` with `pre ++ suf = l`, in increasing
prefix length. -/
def splits : List Char → List (List Char × List Char)
  | [] => [([], [])]
  | c :: cs => ([], c :: cs) :: (splits cs).map fun p => (c :: p.1, p.2)

/-- Python `.` compatibility: no newline. -/
def noNL (l : List Char) : Bool := l.all fun c => c ≠ '\n'

/-- Group 4: at a split `(d, suf)`, `(.*)\)` matches when `suf` starts
with `)` and `d` crosses no newline. -/
def stepD (p : List Char × List Char) : Option (List Char) :=
  match p.2 with
  | ')' :: _ => if noNL p.1 then some p.1 else none
  | _ => none

/-- Greedy match of `(.*)\)` against `r` (with arbitrary trailing text). -/
def matchD (r : List Char) : Option (List Char) :=
  (splits r).reverse.findSome? stepD

/-- Group 3 step: `(.+),` then group 4. -/
def stepC (p : List Char × List Char) :
    Option (List Char × List Char) :=
  match p.2 with
  | ',' :: r4 =>
    if p.1 ≠ [] ∧ noNL p.1 then (matchD r4).map fun d => (p.1, d)
    else none
  | _ => none

/-- Greedy match of `(.+),(.*)\)` against `r`. -/
def matchC (r : List Char) : Option (List Char × List Char) :=
  (splits r).reverse.findSome? stepC

/-- Group 2 step: `(.+),` then groups 3-4. -/
def stepB (p : List Char × List Char) :
    Option (List Char × List Char × List Char) :=
  match p.2 with
  | ',' :: r3 =>
    if p.1 ≠ [] ∧ noNL p.1 then (matchC r3).map fun cd => (p.1, cd)
    else none
  | _ => none

/-- Greedy match of `(.+),(.+),(.*)\)` against `r`. -/
def matchB (r : List Char) :
    Option (List Char × List Char × List Char) :=
  (splits r).reverse.findSome? stepB

/-- Group 1 step: `(.+)",` then groups 2-4. -/
def stepA (p : List Char × List Char) :
    Option (List Char × List Char × List Char × List Char) :=
  match p.2 with
  | '"' :: ',' :: r2 =>
    if p.1 ≠ [] ∧ noNL p.1 then (matchB r2).map fun bcd => (p.1, bcd)
    else none
  | _ => none

/-- Greedy match of `(.+)",(.+),(.+),(.*)\)` against `r`. -/
def matchA (r : List Char) :
    Option (List Char × List Char × List Char × List Char) :=
  (splits r).reverse.findSome? stepA

/-- `re.match(r'\("(.+)",(.+),(.+),(.*)\)', value)`: the anchored literal
head `("` then the grouped remainder; returns the four captured groups. -/
def matchMetricLit (l : List Char) :
    Option (List Char × List Char × List Char × List Char) :=
  match l with
  | '(' :: '"' :: rest => matchA rest
  | _ => none

theorem splits_iff (l a b : List Char) :
    (a, b) ∈ splits l ↔ a ++ b = l := by
  induction l generalizing a b with
  | nil =>
    simp only [splits, List.mem_singleton, Prod.mk.injEq]
    constructor
    · rintro ⟨ha, hb⟩
      rw [ha, hb]
      rfl
    · intro h
      have h2 := List.append_eq_nil.mp h
      exact ⟨h2.1, h2.2⟩
  | cons c cs ih =>
    simp only [splits, List.mem_cons, List.mem_map, Prod.mk.injEq]
    constructor
    · rintro (⟨ha, hb⟩ | ⟨q, hq, hq1, hq2⟩)
      · rw [ha, hb]
        rfl
      · rw [← hq1, ← hq2]
        have := (ih q.1 q.2).mp (by
          rcases q with ⟨q1, q2⟩
          exact hq)
        simp [this]
    · intro h
      cases a with
      | nil =>
        left
        exact ⟨rfl, by simpa using h⟩
      | cons a0 a1 =>
        right
        have h0 : a0 = c ∧ a1 ++ b = cs := by
          constructor
          · exact (List.cons.injEq _ _ _ _ ▸ h).1
          · exact (List.cons.injEq _ _ _ _ ▸ h).2
        exact ⟨(a1, b), (ih a1 b).mpr h0.2, by rw [h0.1], rfl⟩

theorem findSome_none {α β : Type} {l : List α} {f : α → Option β}
    (h : ∀ x ∈ l, f x = none) : l.findSome? f = none := by
  induction l with
  | nil => rfl
  | cons a as ih =>
    rw [List.findSome?]
    rw [h a (by simp)]
    exact ih fun x hx => h x (by simp [hx])

theorem findSome_of_unique {α β : Type} {l : List α} {f : α → Option β}
    {x : α} {r : β} (hx : x ∈ l) (hfx : f x = some r)
    (hu : ∀ y ∈ l, f y = none ∨ f y = f x) :
    l.findSome? f = some r := by
  induction l with
  | nil => cases hx
  | cons a as ih =>
    rw [List.findSome?]
    rcases hu a (by simp) with ha | ha
    · rw [ha]
      rcases List.mem_cons.mp hx with he | hm
      · rw [← he, hfx] at ha
        cases ha
      · exact ih hm fun y hy => hu y (by simp [hy])
    · rw [ha, hfx]

theorem marker_split_gen {c : Char} :
    ∀ (A a x y : List Char), a ++ c :: x = A ++ c :: y → c ∉ A →
      (a = A ∧ x = y) ∨ ∃ a2, a = A ++ c :: a2 ∧ a2 ++ c :: x = y := by
  intro A
  induction A with
  | nil =>
    intro a x y h hc
    cases a with
    | nil =>
      left
      simpa using h
    | cons a0 a1 =>
      right
      simp only [List.cons_append, List.nil_append, List.cons.injEq] at h
      exact ⟨a1, by simp [h.1], h.2⟩
  | cons A0 A1 ih =>
    intro a x y h hc
    have hc1 : c ∉ A1 := fun hm => hc (List.mem_cons_of_mem _ hm)
    have hc0 : A0 ≠ c := fun he => hc (by simp [he])
    cases a with
    | nil =>
      simp only [List.nil_append, List.cons_append, List.cons.injEq] at h
      exact absurd h.1.symm hc0
    | cons a0 a1 =>
      simp only [List.cons_append, List.cons.injEq] at h
      rcases ih a1 x y h.2 hc1 with ⟨he, hxy⟩ | ⟨a2, he, hy⟩
      · left
        exact ⟨by simp [h.1, he], hxy⟩
      · right
        exact ⟨a2, by simp [h.1, he], hy⟩

theorem marker_split {c : Char} (A a x y : List Char)
    (h : a ++ c :: x = A ++ c :: y) (hcA : c ∉ A) (hcy : c ∉ y) :
    a = A ∧ x = y := by
  rcases marker_split_gen A a x y h hcA with h1 | ⟨a2, _, hy⟩
  · exact h1
  · exact absurd (hy ▸ (by simp : c ∈ a2 ++ c :: x)) hcy

theorem stepD_shape (p : List Char × List Char)
    (h : ∀ t : List Char, p.2 ≠ ')' :: t) : stepD p = none := by
  unfold stepD
  split
  · rename_i t heq
    exact absurd heq (h _)
  · rfl

theorem stepC_shape (p : List Char × List Char)
    (h : ∀ t : List Char, p.2 ≠ ',' :: t) : stepC p = none := by
  unfold stepC
  split
  · rename_i t heq
    exact absurd heq (h _)
  · rfl

theorem stepB_shape (p : List Char × List Char)
    (h : ∀ t : List Char, p.2 ≠ ',' :: t) : stepB p = none := by
  unfold stepB
  split
  · rename_i t heq
    exact absurd heq (h _)
  · rfl

theorem stepA_shape (p : List Char × List Char)
    (h : ∀ t : List Char, p.2 ≠ '"' :: ',' :: t) : stepA p = none := by
  unfold stepA
  split
  · rename_i t heq
    exact absurd heq (h _)
  · rfl

theorem matchD_eq (D : List Char) (hDn : noNL D = true) (hDp : ')' ∉ D) :
    matchD (D ++ [')']) = some D := by
  unfold matchD
  apply findSome_of_unique (x := (D, [')']))
  · exact List.mem_reverse.mpr ((splits_iff _ _ _).mpr rfl)
  · simp [stepD, hDn]
  · rintro ⟨a, b⟩ hy
    have hab : a ++ b = D ++ [')'] :=
      (splits_iff _ _ _).mp (List.mem_reverse.mp hy)
    cases b with
    | nil => exact Or.inl (stepD_shape _ (by simp))
    | cons c bs =>
      by_cases hc : c = ')'
      · subst hc
        rcases marker_split D a bs [] hab hDp (by simp) with ⟨ha, hb⟩
        subst ha
        subst hb
        exact Or.inr rfl
      · exact Or.inl (stepD_shape _ (by simp [hc]))

theorem matchC_none (l : List Char) (h : ',' ∉ l) : matchC l = none := by
  unfold matchC
  apply findSome_none
  rintro ⟨a, b⟩ hy
  have hab : a ++ b = l := (splits_iff _ _ _).mp (List.mem_reverse.mp hy)
  apply stepC_shape
  intro t ht
  simp only at ht
  subst ht
  exact absurd (by rw [← hab]; simp) h

theorem matchC_eq (C D : List Char) (hCne : C ≠ []) (hCn : noNL C = true)
    (hCc : ',' ∉ C) (hDn : noNL D = true) (hDp : ')' ∉ D)
    (hDc : ',' ∉ D) :
    matchC (C ++ ',' :: (D ++ [')'])) = some (C, D) := by
  have hmemD : ',' ∉ D ++ [')'] := by
    intro hm
    rcases List.mem_append.mp hm with h1 | h1
    · exact hDc h1
    · simp at h1
  unfold matchC
  apply findSome_of_unique (x := (C, ',' :: (D ++ [')'])))
  · exact List.mem_reverse.mpr ((splits_iff _ _ _).mpr rfl)
  · simp [stepC, hCne, hCn, matchD_eq D hDn hDp]
  · rintro ⟨a, b⟩ hy
    have hab : a ++ b = C ++ ',' :: (D ++ [')']) :=
      (splits_iff _ _ _).mp (List.mem_reverse.mp hy)
    cases b with
    | nil => exact Or.inl (stepC_shape _ (by simp))
    | cons c bs =>
      by_cases hc : c = ','
      · subst hc
        rcases marker_split C a bs (D ++ [')']) hab hCc hmemD with ⟨ha, hb⟩
        subst ha
        subst hb
        exact Or.inr rfl
      · exact Or.inl (stepC_shape _ (by simp [hc]))

theorem matchB_eq (B C D : List Char)
    (hBne : B ≠ []) (hBn : noNL B = true) (hBc : ',' ∉ B)
    (hCne : C ≠ []) (hCn : noNL C = true) (hCc : ',' ∉ C)
    (hDn : noNL D = true) (hDp : ')' ∉ D) (hDc : ',' ∉ D) :
    matchB (B ++ ',' :: (C ++ ',' :: (D ++ [')']))) = some (B, C, D) := by
  have hmemD : ',' ∉ D ++ [')'] := by
    intro hm
    rcases List.mem_append.mp hm with h1 | h1
    · exact hDc h1
    · simp at h1
  unfold matchB
  apply findSome_of_unique (x := (B, ',' :: (C ++ ',' :: (D ++ [')']))))
  · exact List.mem_reverse.mpr ((splits_iff _ _ _).mpr rfl)
  · simp [stepB, hBne, hBn, matchC_eq C D hCne hCn hCc hDn hDp hDc]
  · rintro ⟨a, b⟩ hy
    have hab : a ++ b = B ++ ',' :: (C ++ ',' :: (D ++ [')'])) :=
      (splits_iff _ _ _).mp (List.mem_reverse.mp hy)
    cases b with
    | nil => exact Or.inl (stepB_shape _ (by simp))
    | cons c bs =>
      by_cases hc : c = ','
      · subst hc
        rcases marker_split_gen B a bs (C ++ ',' :: (D ++ [')'])) hab hBc
          with ⟨ha, hb⟩ | ⟨a2, ha, hb⟩
        · subst ha
          subst hb
          exact Or.inr rfl
        · rcases marker_split C a2 bs (D ++ [')']) hb hCc hmemD
            with ⟨ha2, hbs⟩
          subst ha2
          subst hbs
          left
          have hnone := matchC_none (D ++ [')']) hmemD
          simp [stepB, hnone]
      · exact Or.inl (stepB_shape _ (by simp [hc]))

theorem matchMetricLit_eq (A B C D : List Char)
    (hAne : A ≠ []) (hAn : noNL A = true) (hAq : '"' ∉ A)
    (hBne : B ≠ []) (hBn : noNL B = true) (hBc : ',' ∉ B) (hBq : '"' ∉ B)
    (hCne : C ≠ []) (hCn : noNL C = true) (hCc : ',' ∉ C) (hCq : '"' ∉ C)
    (hDn : noNL D = true) (hDp : ')' ∉ D) (hDc : ',' ∉ D)
    (hDq : '"' ∉ D) :
    matchMetricLit ('(' :: '"' :: (A ++ '"' :: ',' ::
      (B ++ ',' :: (C ++ ',' :: (D ++ [')']))))) = some (A, B, C, D) := by
  have hq2 : '"' ∉ ',' :: (B ++ ',' :: (C ++ ',' :: (D ++ [')']))) := by
    intro hm
    rcases List.mem_cons.mp hm with h1 | h1
    · simp at h1
    · rcases List.mem_append.mp h1 with h2 | h2
      · exact hBq h2
      · rcases List.mem_cons.mp h2 with h3 | h3
        · simp at h3
        · rcases List.mem_append.mp h3 with h4 | h4
          · exact hCq h4
          · rcases List.mem_cons.mp h4 with h5 | h5
            · simp at h5
            · rcases List.mem_append.mp h5 with h6 | h6
              · exact hDq h6
              · simp at h6
  simp only [matchMetricLit]
  unfold matchA
  apply findSome_of_unique
    (x := (A, '"' :: ',' :: (B ++ ',' :: (C ++ ',' :: (D ++ [')'])))))
  · exact List.mem_reverse.mpr ((splits_iff _ _ _).mpr rfl)
  · simp [stepA, hAne, hAn,
      matchB_eq B C D hBne hBn hBc hCne hCn hCc hDn hDp hDc]
  · rintro ⟨a, b⟩ hy
    have hab : a ++ b =
        A ++ '"' :: ',' :: (B ++ ',' :: (C ++ ',' :: (D ++ [')']))) :=
      (splits_iff _ _ _).mp (List.mem_reverse.mp hy)
    cases b with
    | nil => exact Or.inl (stepA_shape _ (by simp))
    | cons c bs =>
      by_cases hc : c = '"'
      · subst hc
        rcases marker_split A a bs
            (',' :: (B ++ ',' :: (C ++ ',' :: (D ++ [')'])))) hab hAq hq2
          with ⟨ha, hb⟩
        subst ha
        subst hb
        exact Or.inr rfl
      · exact Or.inl (stepA_shape _ (by simp [hc]))

/-! ## Field renderings and their character sets -/

/-- Postgres composite output of a `BOOL` field: `t`, `f`, or empty for
NULL. -/
def fmtOB : Option Bool → List Char
  | none => []
  | some false => ['f']
  | some true => ['t']

theorem not_mem_fmtNat {c : Char} (hc : isDigitCh c = false) (n : Nat) :
    c ∉ fmtNat n := by
  intro hm
  have h := fmtNat_all_digits n c hm
  rw [hc] at h
  simp at h

theorem not_mem_fmtInt {c : Char} (hc : isDigitCh c = false)
    (hminus : c ≠ '-') (i : Int) : c ∉ fmtInt i := by
  intro hm
  unfold fmtInt at hm
  split at hm
  · rcases List.mem_cons.mp hm with h | h
    · exact hminus h
    · exact not_mem_fmtNat hc _ h
  · exact not_mem_fmtNat hc _ hm

theorem fmtInt_ne_nil (i : Int) : fmtInt i ≠ [] := by
  unfold fmtInt
  split
  · simp
  · exact fmtNat_ne_nil _

theorem noNL_fmtInt (i : Int) : noNL (fmtInt i) = true := by
  simp only [noNL, List.all_eq_true, decide_eq_true_eq]
  intro c hc he
  subst he
  exact not_mem_fmtInt (by decide) (by decide) i hc

theorem not_digit_eq_toDigit {c : Char} (hc : isDigitCh c = false)
    (n : Nat) : (c = toDigit n) = False := by
  apply eq_false
  intro h
  have h2 := isDigitCh_toDigit n
  rw [← h, hc] at h2
  simp at h2

theorem not_mem_fmtTs {c : Char} (hc : isDigitCh c = false)
    (hl : c ≠ '-' ∧ c ≠ ' ' ∧ c ≠ ':' ∧ c ≠ '+') (t : Ts) :
    c ∉ fmtTs t := by
  intro hm
  obtain ⟨hl1, hl2, hl3, hl4⟩ := hl
  have hl0 : c ≠ '0' := by
    intro he
    rw [he] at hc
    exact absurd hc (by decide)
  simp [fmtTs, pad4, pad2, not_digit_eq_toDigit hc, hl1, hl2, hl3, hl4,
    hl0] at hm

theorem noNL_fmtTs (t : Ts) : noNL (fmtTs t) = true := by
  simp only [noNL, List.all_eq_true, decide_eq_true_eq]
  intro c hc he
  subst he
  exact not_mem_fmtTs (by decide) (by decide) t hc

theorem fmtTs_ne_nil (t : Ts) : fmtTs t ≠ [] := by
  simp [fmtTs, pad4]

/-- Postgres composite text of a stored metric, as handed to the
registered decoder.  Modelled from the spec (§6 schema and the reference
deployment): fields in declaration order, the quoted timestamp rendered
`YYYY-MM-DD HH:MM:SS+00`, integers in plain decimal, the nullable boolean
as `t`/`f`/empty. -/
def pgText (m : Metric) : List Char :=
  '(' :: '"' :: (fmtTs m.time_stamp ++ '"' :: ',' ::
    (fmtInt m.response_time ++ ',' ::
      (fmtInt m.return_code ++ ',' :: (fmtOB m.regex_check ++ [')']))))

theorem matchMetricLit_pgText (m : Metric) :
    matchMetricLit (pgText m) =
      some (fmtTs m.time_stamp, fmtInt m.response_time,
        fmtInt m.return_code, fmtOB m.regex_check) := by
  have hOB : noNL (fmtOB m.regex_check) = true ∧
      ')' ∉ fmtOB m.regex_check ∧ ',' ∉ fmtOB m.regex_check ∧
      '"' ∉ fmtOB m.regex_check := by
    rcases m.regex_check with _ | b
    · exact ⟨by decide, by decide, by decide, by decide⟩
    · cases b
      · exact ⟨by decide, by decide, by decide, by decide⟩
      · exact ⟨by decide, by decide, by decide, by decide⟩
  exact matchMetricLit_eq _ _ _ _
    (fmtTs_ne_nil _) (noNL_fmtTs _) (not_mem_fmtTs (by decide) (by decide) _)
    (fmtInt_ne_nil _) (noNL_fmtInt _)
    (not_mem_fmtInt (by decide) (by decide) _)
    (not_mem_fmtInt (by decide) (by decide) _)
    (fmtInt_ne_nil _) (noNL_fmtInt _)
    (not_mem_fmtInt (by decide) (by decide) _)
    (not_mem_fmtInt (by decide) (by decide) _)
    hOB.1 hOB.2.1 hOB.2.2.1 hOB.2.2.2

/-! ## The decoder `_cast_metric` -/

/-- psycopg2 exceptions distinguished by the decoder's error paths:
`psycopg2.InterfaceError` (the spec's `CodecError`), raised explicitly by
`_cast_metric`, versus the plain `ValueError` escaping from `int()` or
`datetime.fromisoformat`. -/
inductive PyErr where
  | interfaceError
  | valueError
deriving DecidableEq, Repr

/-- Lift a Python call that raises `ValueError` on failure. -/
def orValueError {α : Type} : Option α → Except PyErr α
  | none => .error .valueError
  | some a => .ok a

/-- Body of `_cast_metric` after a successful regex match, on the four
captured groups: `fromisoformat(group(1) + ':00')`, `int(group(2))`,
`int(group(3))` in that order, then the `''`/`'f'`/`'t'` analysis of
group 4, raising `InterfaceError` on any other group-4 content. -/
def castGroups : List Char × List Char × List Char × List Char →
    Except PyErr (Ts × Int × Int × Option Bool)
  | (a, b, c, d) =>
    (orValueError (parseIso (a ++ [':', '0', '0']))).bind fun ts =>
      (orValueError (pyInt b)).bind fun rt =>
        (orValueError (pyInt c)).bind fun rc =>
          if d = [] then .ok (ts, rt, rc, none)
          else if d = ['f'] then .ok (ts, rt, rc, some false)
          else if d = ['t'] then .ok (ts, rt, rc, some true)
          else .error .interfaceError

/-- `_cast_metric` on a non-NULL composite literal: regex match, then the
group analysis; a failed match raises
`InterfaceError(f"bad metric representation: ...")`. -/
def castMetricL (l : List Char) : Except PyErr (Ts × Int × Int × Option Bool) :=
  ((matchMetricLit l).map castGroups).getD (.error .interfaceError)

/-- `_cast_metric(value, cur)` from `wsmonitor/api.py`: `None` maps to
`None`, otherwise the literal is decoded (errors propagate to the caller
of the read). -/
def _cast_metric (v : Option String) :
    Except PyErr (Option (Ts × Int × Int × Option Bool)) :=
  match v with
  | none => .ok none
  | some s => (castMetricL s.toList).map fun x => some x

/-- A metric whose timestamp Postgres can render as modelled (the only
fields `fmtTs` is stated for). -/
def Metric.valid (m : Metric) : Prop := tsValid m.time_stamp

instance (m : Metric) : Decidable m.valid := by
  unfold Metric.valid
  infer_instance

/-- Helper: the decoder recovers exactly the stored tuple from the
composite text of any valid metric. -/
theorem castMetricL_pgText (m : Metric) (h : m.valid) :
    castMetricL (pgText m) =
      .ok (m.time_stamp, m.response_time, m.return_code, m.regex_check) := by
  unfold castMetricL
  rw [matchMetricLit_pgText m]
  simp only [Option.map_some', Option.getD_some, castGroups]
  rw [parseIso_fmtTs m.time_stamp h]
  simp only [orValueError, Except.bind, pyInt_fmtInt]
  rcases m.regex_check with _ | b
  · simp [fmtOB]
  · cases b
    · simp [fmtOB]
    · simp [fmtOB]

/-- Read path of `url_status` for one id: the row found by id, its
`metric[]` column rendered element-wise to composite text by the server
and decoded by the registered `_cast_metric`. -/
def url_status_metrics (db : DB) (i : Nat) :
    Option (List (Except PyErr (Option (Ts × Int × Int × Option Bool)))) :=
  (db.find? fun r => r.1 == i).map fun r =>
    r.2.metrics.map fun mm => _cast_metric (some (String.mk (pgText mm)))

/-- Helper: `database_add_metric` on a table containing the id appends to
exactly that row. -/
theorem database_add_metric_found (pre post : DB) (i : Nat) (e : Entry)
    (m : Metric) (hpre : ∀ p ∈ pre, p.1 ≠ i)
    (hpost : ∀ p ∈ post, p.1 ≠ i) :
    database_add_metric (pre ++ (i, e) :: post) i m =
      pre ++ (i, ⟨e.url, e.regexp, e.metrics ++ [m]⟩) :: post := by
  have h1 := database_add_metric_skip i m pre hpre
  have h2 := database_add_metric_skip i m post hpost
  simp only [database_add_metric, List.map_append, List.map_cons] at h1 h2 ⊢
  simp [h1, h2]

/-- Helper: `find?` by id skips rows with other ids. -/
theorem find?_append_skip (l1 l2 : DB) (i : Nat)
    (h : ∀ p ∈ l1, p.1 ≠ i) :
    ((l1 ++ l2).find? fun r => r.1 == i) =
      l2.find? fun r => r.1 == i := by
  induction l1 with
  | nil => rfl
  | cons p rest ih =>
    have hp : (p.1 == i) = false := by
      simp only [beq_eq_false_iff_ne, ne_eq]
      exact h p (by simp)
    rw [List.cons_append, List.find?, hp]
    exact ih fun q hq => h q (by simp [hq])

/-- C4: appending a metric event to an existing entry's history via the
storage append operation and re-reading that history through the decoder
yields the same (second-precision timestamp, response_time, return_code,
regex_check) tuple as was appended, as the last element of the history. -/
theorem claim_C4_roundtrip (pre post : DB) (i : Nat) (e : Entry)
    (m : Metric) (hpre : ∀ p ∈ pre, p.1 ≠ i)
    (hpost : ∀ p ∈ post, p.1 ≠ i) (hm : m.valid) :
    ∃ hist,
      url_status_metrics (database_add_metric (pre ++ (i, e) :: post) i m)
        i = some hist ∧
      hist.getLast? = some (.ok (some (m.time_stamp, m.response_time,
        m.return_code, m.regex_check))) := by
  rw [database_add_metric_found pre post i e m hpre hpost]
  unfold url_status_metrics
  rw [find?_append_skip pre _ i hpre]
  rw [List.find?_cons_of_pos _ (by simp)]
  simp only [Option.map_some']
  refine ⟨_, rfl, ?_⟩
  rw [List.map_append, List.map_cons, List.map_nil,
    List.getLast?_concat]
  have hcast : _cast_metric (some (String.mk (pgText m))) =
      .ok (some (m.time_stamp, m.response_time, m.return_code,
        m.regex_check)) := by
    show (castMetricL (String.mk (pgText m)).toList).map (fun x => some x) =
      _
    rw [show (String.mk (pgText m)).toList = pgText m from rfl]
    rw [castMetricL_pgText m hm]
    rfl
  rw [hcast]

/-- C4 witness: a concrete metric appended to a one-entry table reads back
identically. -/
theorem claim_C4_witness :
    ∃ hist,
      url_status_metrics (database_add_metric
        [(1, ⟨"http://a", none, []⟩)] 1
        ⟨⟨2021, 6, 7, 8, 9, 10, 0⟩, 123, 200, some true⟩) 1 = some hist ∧
      hist.getLast? = some (.ok (some (⟨2021, 6, 7, 8, 9, 10, 0⟩, 123,
        200, some true))) :=
  claim_C4_roundtrip [] [] 1 ⟨"http://a", none, []⟩
    ⟨⟨2021, 6, 7, 8, 9, 10, 0⟩, 123, 200, some true⟩
    (by simp) (by simp) (by decide)

/-- C9 counterexample: the literal `("2021-01-01 00:00:00+00",abc,200,t)`
matches the composite regex, `fromisoformat` succeeds, but
`int("abc")` raises a plain `ValueError`, not the
`psycopg2.InterfaceError` the spec calls `CodecError` — so "for any other
string it raises a CodecError" is false, as is "for every string matching
the composite form it returns the tuple". -/
theorem claim_C9_counterexample :
    _cast_metric (some ("(\"2021-01-01 00:00:00+00\",abc,200,t)")) =
      .error .valueError ∧
      PyErr.valueError ≠ PyErr.interfaceError :=
  ⟨by rfl, by decide⟩

/-- Helper: on a matched literal the decoder is the group analysis. -/
theorem castMetricL_match_some (l : List Char)
    (g : List Char × List Char × List Char × List Char)
    (h : matchMetricLit l = some g) : castMetricL l = castGroups g := by
  unfold castMetricL
  rw [h]
  rfl

/-- C9 (amended): the decoder raises `CodecError` (`InterfaceError`)
exactly when the literal does not match the composite regex, or matches
it but the `regex_check` field is none of `''`/`'f'`/`'t'` — in
particular an `InterfaceError` arises only from those two causes; for
every literal whose groups parse (timestamp and both integers) the
`regex_check` field maps `''` to absent, `'f'` to false and `'t'` to
true, so every well-formed composite rendering of a metric decodes to its
`(timestamp, response_time, return_code, regex_check)` tuple; but a
matching literal whose timestamp or integer field is malformed raises a
plain `ValueError` (from `fromisoformat`/`int()`) instead of
`CodecError`.  Errors propagate to, and abort, the calling read. -/
theorem claim_C9_amended_codec :
    (∀ s : String, matchMetricLit s.toList = none →
      _cast_metric (some s) = .error .interfaceError) ∧
    (∀ l a b c d : List Char, matchMetricLit l = some (a, b, c, d) →
      parseIso (a ++ [':', '0', '0']) = none →
      castMetricL l = .error .valueError) ∧
    (∀ (l a b c d : List Char) (ts : Ts),
      matchMetricLit l = some (a, b, c, d) →
      parseIso (a ++ [':', '0', '0']) = some ts →
      pyInt b = none →
      castMetricL l = .error .valueError) ∧
    (∀ (l a b c d : List Char) (ts : Ts) (rt : Int),
      matchMetricLit l = some (a, b, c, d) →
      parseIso (a ++ [':', '0', '0']) = some ts →
      pyInt b = some rt → pyInt c = none →
      castMetricL l = .error .valueError) ∧
    (∀ (l a b c d : List Char) (ts : Ts) (rt rc : Int),
      matchMetricLit l = some (a, b, c, d) →
      parseIso (a ++ [':', '0', '0']) = some ts →
      pyInt b = some rt → pyInt c = some rc →
      (d = [] → castMetricL l = .ok (ts, rt, rc, none)) ∧
      (d = ['f'] → castMetricL l = .ok (ts, rt, rc, some false)) ∧
      (d = ['t'] → castMetricL l = .ok (ts, rt, rc, some true)) ∧
      (d ≠ [] → d ≠ ['f'] → d ≠ ['t'] →
        castMetricL l = .error .interfaceError)) ∧
    (∀ l : List Char, castMetricL l = .error .interfaceError →
      matchMetricLit l = none ∨
      ∃ a b c d ts rt rc, matchMetricLit l = some (a, b, c, d) ∧
        parseIso (a ++ [':', '0', '0']) = some ts ∧
        pyInt b = some rt ∧ pyInt c = some rc ∧
        d ≠ [] ∧ d ≠ ['f'] ∧ d ≠ ['t']) ∧
    (∀ m : Metric, m.valid →
      castMetricL (pgText m) =
        .ok (m.time_stamp, m.response_time, m.return_code,
          m.regex_check)) := by
  refine ⟨?_, ?_, ?_, ?_, ?_, ?_, fun m hm => castMetricL_pgText m hm⟩
  · intro s hnone
    show (castMetricL s.toList).map (fun x => some x) = _
    unfold castMetricL
    rw [hnone]
    rfl
  · intro l a b c d hm hts
    rw [castMetricL_match_some l (a, b, c, d) hm]
    simp only [castGroups]
    rw [hts]
    rfl
  · intro l a b c d ts hm hts hb
    rw [castMetricL_match_some l (a, b, c, d) hm]
    simp only [castGroups]
    rw [hts, hb]
    rfl
  · intro l a b c d ts rt hm hts hb hc
    rw [castMetricL_match_some l (a, b, c, d) hm]
    simp only [castGroups]
    rw [hts, hb, hc]
    rfl
  · intro l a b c d ts rt rc hm hts hb hc
    rw [castMetricL_match_some l (a, b, c, d) hm]
    simp only [castGroups]
    rw [hts, hb, hc]
    simp only [orValueError, Except.bind]
    refine ⟨?_, ?_, ?_, ?_⟩
    · intro hd
      rw [if_pos hd]
    · intro hd
      have hd1 : ¬ d = [] := by
        rw [hd]
        simp
      rw [if_neg hd1, if_pos hd]
    · intro hd
      have hd1 : ¬ d = [] := by
        rw [hd]
        simp
      have hd2 : ¬ d = ['f'] := by
        rw [hd]
        simp
      rw [if_neg hd1, if_neg hd2, if_pos hd]
    · intro hd1 hd2 hd3
      rw [if_neg hd1, if_neg hd2, if_neg hd3]
  · intro l herr
    cases hm : matchMetricLit l with
    | none => exact Or.inl rfl
    | some g =>
      obtain ⟨a, b, c, d⟩ := g
      right
      rw [castMetricL_match_some l (a, b, c, d) hm] at herr
      simp only [castGroups] at herr
      cases hts : parseIso (a ++ [':', '0', '0']) with
      | none =>
        rw [hts] at herr
        simp [orValueError, Except.bind] at herr
      | some ts =>
        rw [hts] at herr
        simp only [orValueError, Except.bind] at herr
        cases hb : pyInt b with
        | none =>
          rw [hb] at herr
          simp [orValueError, Except.bind] at herr
        | some rt =>
          rw [hb] at herr
          simp only [orValueError, Except.bind] at herr
          cases hc : pyInt c with
          | none =>
            rw [hc] at herr
            simp [orValueError, Except.bind] at herr
          | some rc =>
            rw [hc] at herr
            simp only [orValueError, Except.bind] at herr
            by_cases hd1 : d = []
            · rw [if_pos hd1] at herr
              simp at herr
            · rw [if_neg hd1] at herr
              by_cases hd2 : d = ['f']
              · rw [if_pos hd2] at herr
                simp at herr
              · rw [if_neg hd2] at herr
                by_cases hd3 : d = ['t']
                · rw [if_pos hd3] at herr
                  simp at herr
                · exact ⟨a, b, c, d, ts, rt, rc, rfl, hts, hb, hc,
                    hd1, hd2, hd3⟩

/-- C9 witness: each clause exercised concretely — a non-matching string
raises `CodecError`; a matching literal with a malformed timestamp and
one with a malformed integer raise `ValueError`; a matching literal with
a bad `regex_check` field raises `CodecError`; a concrete valid metric
decodes back to its tuple. -/
theorem claim_C9_witness :
    _cast_metric (some ("xyz")) = .error .interfaceError ∧
      castMetricL (("(\"bad\",1,2,t)").toList) = .error .valueError ∧
      castMetricL (("(\"2021-01-01 00:00:00+00\",abc,200,t)").toList) =
        .error .valueError ∧
      castMetricL (("(\"2021-01-01 00:00:00+00\",12,200,x)").toList) =
        .error .interfaceError ∧
      castMetricL (pgText ⟨⟨2021, 1, 2, 3, 4, 5, 0⟩, 7, 200, some false⟩) =
        .ok (⟨2021, 1, 2, 3, 4, 5, 0⟩, 7, 200, some false) := by
  have h := claim_C9_amended_codec
  refine ⟨h.1 ("xyz") (by rfl), ?_, ?_, ?_,
    h.2.2.2.2.2.2 ⟨⟨2021, 1, 2, 3, 4, 5, 0⟩, 7, 200, some false⟩
      (by decide)⟩
  · exact h.2.1 _ (("bad").toList) (("1").toList) (("2").toList) ['t']
      (by rfl) (by rfl)
  · exact h.2.2.1 _ (("2021-01-01 00:00:00+00").toList) (("abc").toList)
      (("200").toList) ['t'] ⟨2021, 1, 1, 0, 0, 0, 0⟩ (by rfl) (by rfl)
      (by rfl)
  · exact (h.2.2.2.2.1 _ (("2021-01-01 00:00:00+00").toList)
      (("12").toList) (("200").toList) ['x'] ⟨2021, 1, 1, 0, 0, 0, 0⟩
      12 200 (by rfl) (by rfl) (by rfl) (by rfl)).2.2.2
      (by decide) (by decide) (by decide)

end WsMonitor
